import Mathlib

/-!
Verification development for the llm-compass repository.

This file gives a shallow embedding, in Lean 4, of the parts of the
repository that the verified claims talk about:

* `src/llm_compass/data/normalizer.py` — the `normalize_model` heuristic
  parser, its provider table `PROVIDER_PATTERNS`, its date table
  `DATE_PATTERNS`, the camel-case word-boundary passes, and the variant,
  size, version and id-construction steps;
* `src/llm_compass/data/ingestion.py` — `ingest_benchmark_scores`, in
  particular its foreign-key resolution loop and lookup maps;
* `src/llm_compass/data/models.py` — `LLMMetadataSchema.validate_bool_fields`;
* `src/llm_compass/data/embedding.py` — `Embedding.generate_index`,
  `Embedding._openrouter_embed` (dimension check) and
  `Embedding.search_index` (the FAISS exact inner-product top-k search);
* the CalibrationEngine of spec section 4.4, modelled from the spec because
  `retrieve_and_rank_models` in `src/llm_compass/agentic_core/tools.py` is
  an empty stub.

Python strings are modelled as `List Char` (ASCII behaviour; the inputs of
interest are ASCII).  The regular expressions of the source are small and
fixed, so each one is embedded as an explicit, executable matcher with the
exact leftmost-match, first-alternative and greedy semantics of the
`re` module calls in the source.  Machine floats do not occur in the
claims; scores and vector entries are modelled as rationals.
-/

/-! # Character classes used by the source regexes -/

/-- Class `[a-z]` of the source regexes (ASCII lower-case letter). -/
def isLowerL (c : Char) : Bool := 'a' ≤ c && c ≤ 'z'

/-- Class `[A-Z]` of the source regexes (ASCII upper-case letter). -/
def isUpperL (c : Char) : Bool := 'A' ≤ c && c ≤ 'Z'

/-- Class `\d` of the source regexes, restricted to ASCII `0-9`. -/
def isDigitC (c : Char) : Bool := c.isDigit

/-- Class `[a-zA-Z0-9]` used by the provider fallback of `normalize_model`. -/
def isAlnumC (c : Char) : Bool := isLowerL c || isUpperL c || isDigitC c

/-- Class `\w` of Python regexes, ASCII: letters, digits and underscore. -/
def isWordChar (c : Char) : Bool := isAlnumC c || c = '_'

/-- The ASCII whitespace characters stripped by Python `str.strip()`. -/
def spaceChars : List Char := [' ', '\t', '\n', '\r', '\x0b', '\x0c']

/-- Python `str.isspace` on the ASCII characters of interest. -/
def isPySpace (c : Char) : Bool := spaceChars.contains c

/-- Python `str.strip()` on a list of characters (ASCII whitespace). -/
def pyStrip (s : List Char) : List Char :=
  ((s.dropWhile isPySpace).reverse.dropWhile isPySpace).reverse

/-- Python `str.strip()` on a `String`. -/
def pyStripStr (s : String) : String := String.mk (pyStrip s.toList)

/-- Python `str.lower()` on a list of characters (ASCII). -/
def lowerAll (s : List Char) : List Char := s.map Char.toLower

/-- Python `str.upper()` on a `String` (ASCII). -/
def strUpper (s : String) : String := String.mk (s.toList.map Char.toUpper)

/-- Python `str.lower()` on a `String` (ASCII). -/
def strLower (s : String) : String := String.mk (lowerAll s.toList)

/-! # A small matcher for the fixed alternation regexes of the source

Each alternative of patterns such as `claude|anthropic`, `\bthinking\b` or
`\bo\d|deepseek[- ]?r1` is a fixed-length sequence of character classes,
optionally guarded by a word boundary on either side.  In every such
pattern of the source the character adjacent to a `\b` inside the pattern
is a word character, so the boundary test reduces to: the neighbouring
character outside the match, when it exists, is not a word character. -/

/-- One regex alternative: a sequence of character classes with optional
word-boundary requirements before and after the matched text. -/
structure Alt where
  needBoundaryBefore : Bool := false
  classes : List (Char → Bool)
  needBoundaryAfter : Bool := false

/-- Boundary test against the character immediately before the match. -/
def boundaryOKBefore (prev : Option Char) : Bool :=
  match prev with
  | none => true
  | some c => !(isWordChar c)

/-- Boundary test against the character immediately after the match. -/
def boundaryOKAfter (rest : List Char) : Bool :=
  match rest with
  | [] => true
  | c :: _ => !(isWordChar c)

/-- Match a sequence of character classes against the head of `s`,
returning the matched characters and the remainder. -/
def matchClasses : List (Char → Bool) → List Char → Option (List Char × List Char)
  | [], s => some ([], s)
  | _ :: _, [] => none
  | cls :: cs, c :: s =>
      if cls c then (matchClasses cs s).map (fun p => (c :: p.1, p.2)) else none

/-- Match one alternative at the current position, `prev` being the
character just before that position in the original string. -/
def matchAltAt (prev : Option Char) (alt : Alt) (s : List Char) :
    Option (List Char × List Char) :=
  if alt.needBoundaryBefore && !(boundaryOKBefore prev) then none
  else
    match matchClasses alt.classes s with
    | none => none
    | some (m, r) =>
        if alt.needBoundaryAfter && !(boundaryOKAfter r) then none else some (m, r)

/-- Try the alternatives in order at the current position (the alternation
semantics of the `re` module: first alternative that matches wins). -/
def matchAltsAt (prev : Option Char) (alts : List Alt) (s : List Char) :
    Option (List Char × List Char) :=
  alts.findSome? (fun alt => matchAltAt prev alt s)

/-- Leftmost search of an alternation, as in `re.search`: scan positions
left to right, and at each position try the alternatives in order.
Returns the matched text of the first match found. -/
def searchAlts (alts : List Alt) : Option Char → List Char → Option (List Char)
  | prev, [] => (matchAltsAt prev alts []).map (fun p => p.1)
  | prev, c :: rest =>
      match matchAltsAt prev alts (c :: rest) with
      | some (m, _) => some m
      | none => searchAlts alts (some c) rest

/-- Fuel-driven worker for `subAlts`; the fuel is an upper bound on the
number of scan steps, each of which consumes at least one character. -/
def subAltsGo (alts : List Alt) (repl : List Char) :
    Nat → Option Char → List Char → List Char
  | 0, _, s => s
  | _, _, [] => []
  | fuel + 1, prev, c :: rest =>
      match matchAltsAt prev alts (c :: rest) with
      | some (m, r) =>
          match m with
          | [] => c :: subAltsGo alts repl fuel (some c) rest
          | _ :: _ => repl ++ subAltsGo alts repl fuel (some (m.getLastD c)) r
      | none => c :: subAltsGo alts repl fuel (some c) rest

/-- The semantics of `re.sub(pattern, repl, s)` for the alternation
patterns of the source: replace every non-overlapping leftmost match. -/
def subAlts (alts : List Alt) (repl : List Char) (s : List Char) : List Char :=
  subAltsGo alts repl (s.length + 1) none s

/-- Case-insensitive literal alternative, as produced by a plain word such
as `claude` inside a pattern compiled with `re.IGNORECASE`. -/
def ciLit (lit : String) : Alt :=
  { classes := lit.toList.map (fun a => fun c => c.toLower = a.toLower) }

/-- Case-insensitive literal alternative carrying a word boundary on both
sides, as in `\bthinking\b`. -/
def ciWord (lit : String) : Alt :=
  { needBoundaryBefore := true
    classes := lit.toList.map (fun a => fun c => c.toLower = a.toLower)
    needBoundaryAfter := true }

/-! # The provider knowledge base of the source

Embedding of `PROVIDER_PATTERNS` from `normalizer.py`.  Each entry is the
list of alternatives of the source regex, in source order, paired with the
provider name.  All provider regexes are alternations of literals except
`o[1-9]` (letter o followed by a digit 1-9, no word boundary) and
`01\.ai` (a literal with an escaped dot, hence the plain literal
`01.ai`). -/

/-- Alternative `o[1-9]` of the `openai` entry (case-insensitive). -/
def oDigitAlt : Alt :=
  { classes := [fun c => c.toLower = 'o', fun c => '1' ≤ c && c ≤ '9'] }

/-- The ordered provider table `PROVIDER_PATTERNS` of `normalizer.py`. -/
def PROVIDER_PATTERNS : List (List Alt × String) :=
  [ ([ciLit "claude", ciLit "anthropic"], "anthropic"),
    ([ciLit "gpt", ciLit "openai", oDigitAlt], "openai"),
    ([ciLit "gemini", ciLit "google", ciLit "gemma", ciLit "palm"], "google"),
    ([ciLit "llama", ciLit "meta"], "meta"),
    ([ciLit "mistral", ciLit "mixtral", ciLit "pixtral"], "mistral"),
    ([ciLit "qwen", ciLit "qwq", ciLit "alibaba"], "alibaba"),
    ([ciLit "deepseek"], "deepseek"),
    ([ciLit "grok", ciLit "xai"], "xai"),
    ([ciLit "phi", ciLit "microsoft"], "microsoft"),
    ([ciLit "command", ciLit "cohere"], "cohere"),
    ([ciLit "kimi", ciLit "moonshot"], "moonshot"),
    ([ciLit "minimax"], "minimax"),
    ([ciLit "glm", ciLit "chatglm", ciLit "zhipu", ciLit "thudm"], "zhipu"),
    ([ciLit "yi", ciLit "01.ai"], "01-ai"),
    ([ciLit "baichuan"], "baichuan"),
    ([ciLit "arctic", ciLit "snowflake"], "snowflake"),
    ([ciLit "dbrx", ciLit "databricks"], "databricks"),
    ([ciLit "solar", ciLit "upstage"], "upstage"),
    ([ciLit "granite", ciLit "ibm"], "ibm"),
    ([ciLit "samba", ciLit "sambanova"], "sambanova"),
    ([ciLit "cerebras"], "cerebras"),
    ([ciLit "jamba", ciLit "ai21"], "ai21"),
    ([ciLit "starcoder", ciLit "bigcode"], "bigcode"),
    ([ciLit "falcon", ciLit "tii"], "tii") ]

/-- Alternatives of the forced-reasoning pattern
`\bo\d|deepseek[- ]?r1` (re.IGNORECASE) of `normalize_model`.  The greedy
optional `[- ]?` expands into the separated alternative before the
unseparated one. -/
def reasoningAlts : List Alt :=
  [ { needBoundaryBefore := true
      classes := [fun c => c.toLower = 'o', isDigitC] },
    { classes :=
        (ciLit "deepseek").classes ++
          [fun c => c = '-' || c = ' '] ++ (ciLit "r1").classes },
    ciLit "deepseekr1" ]

/-- The ordered variant patterns `\bthinking\b`, `\binstruct\b`,
`\bpreview\b` of `normalize_model` step 2, paired with the variant each
one sets. -/
def VARIANT_PATTERNS : List (List Alt × String) :=
  [ ([ciWord "thinking"], "thinking"),
    ([ciWord "instruct"], "instruct"),
    ([ciWord "preview"], "preview") ]

/-! # The camel-case passes of the source

Embedding of `_CAMEL_PASSES`.  Each pass is a global `re.sub` whose
replacement keeps the matched characters and inserts one space between
the two capture groups.  Because every match of these patterns ends in a
character that can never start or continue another match of the same
pattern, each global substitution is equivalent to inserting a space at
every position of the original string where the local context below
holds; the embeddings perform exactly that insertion. -/

/-- Pass `([a-z])([A-Z]) -> \1 \2`: a space between every adjacent
lower-case/upper-case pair. -/
def camelPass1 : List Char → List Char
  | c1 :: c2 :: rest =>
      if isLowerL c1 && isUpperL c2 then c1 :: ' ' :: camelPass1 (c2 :: rest)
      else c1 :: camelPass1 (c2 :: rest)
  | s => s

/-- Worker for `camelPass2`, carrying the previous character of the
original string. -/
def camelPass2Go : Option Char → List Char → List Char
  | prev, c :: c1 :: c2 :: rest =>
      if (match prev with | some p => isUpperL p | none => false) &&
          isUpperL c && isUpperL c1 && isLowerL c2 then
        c :: ' ' :: camelPass2Go (some c) (c1 :: c2 :: rest)
      else c :: camelPass2Go (some c) (c1 :: c2 :: rest)
  | _, s => s

/-- Pass `([A-Z]{2,})([A-Z][a-z]) -> \1 \2`: a space before the last
upper-case letter of a run of at least three upper-case letters that is
followed by a lower-case letter. -/
def camelPass2 (s : List Char) : List Char := camelPass2Go none s

/-- Pass `(\d)([A-Z][a-z]) -> \1 \2`: a space between a digit and an
upper-case letter followed by a lower-case letter. -/
def camelPass3 : List Char → List Char
  | c :: c1 :: c2 :: rest =>
      if isDigitC c && isUpperL c1 && isLowerL c2 then
        c :: ' ' :: camelPass3 (c1 :: c2 :: rest)
      else c :: camelPass3 (c1 :: c2 :: rest)
  | s => s

/-- Pass `([a-np-z])(\d) -> \1 \2`: a space between a lower-case letter
other than o and a digit. -/
def camelPass4 : List Char → List Char
  | c1 :: c2 :: rest =>
      if (isLowerL c1 && c1 ≠ 'o') && isDigitC c2 then
        c1 :: ' ' :: camelPass4 (c2 :: rest)
      else c1 :: camelPass4 (c2 :: rest)
  | s => s

/-- All four word-boundary insertion passes, in source order. -/
def camelPasses (s : List Char) : List Char :=
  camelPass4 (camelPass3 (camelPass2 (camelPass1 s)))

/-! # Literal replacement and generic position scan -/

/-- Test whether `lit` occurs at the head of `s` (plain, case-sensitive). -/
def litHere : List Char → List Char → Bool
  | [], _ => true
  | _ :: _, [] => false
  | a :: as, c :: cs => a = c && litHere as cs

/-- Fuel-driven worker for `replaceAll`. -/
def replaceAllGo (old new : List Char) : Nat → List Char → List Char
  | 0, s => s
  | _, [] => []
  | fuel + 1, c :: rest =>
      if litHere old (c :: rest) then
        new ++ replaceAllGo old new fuel ((c :: rest).drop old.length)
      else c :: replaceAllGo old new fuel rest

/-- Python `str.replace(old, new)`: every non-overlapping occurrence of
`old` is replaced by `new`, scanning left to right.  The source only ever
calls it with a non-empty `old` (a regex match); an empty `old` is
returned unchanged here. -/
def replaceAll (s old new : List Char) : List Char :=
  match old with
  | [] => s
  | _ :: _ => replaceAllGo old new (s.length + 1) s

/-- Generic leftmost scan: try the position matcher `f` at every position
from left to right, tracking the previous character for word-boundary
tests, and return the first result. -/
def searchPos (f : Option Char → List Char → Option α) :
    Option Char → List Char → Option α
  | prev, [] => f prev []
  | prev, c :: rest =>
      match f prev (c :: rest) with
      | some r => some r
      | none => searchPos f (some c) rest

/-! # The date table of the source

Embedding of `DATE_PATTERNS` from `normalizer.py`.  Each entry embeds one
`(pattern, format)` pair: the position matcher returns the text matched by
the whole pattern together with the formatted date value produced by the
format lambda of the source. -/

/-- Pattern `\((\d{4})(\d{2})(\d{2})\)` with format `YYYY-MM-DD`:
a parenthesised run of exactly eight digits. -/
def dateAt1 (_prev : Option Char) (s : List Char) : Option (List Char × String) :=
  match s with
  | '(' :: a :: b :: c :: d :: e :: f :: g :: h :: ')' :: _ =>
      if isDigitC a && isDigitC b && isDigitC c && isDigitC d &&
          isDigitC e && isDigitC f && isDigitC g && isDigitC h then
        some (['(', a, b, c, d, e, f, g, h, ')'],
          String.mk [a, b, c, d, '-', e, f, '-', g, h])
      else none
  | _ => none

/-- Pattern `\((\d{4}-\d{2}-\d{2})\)` with the captured text as value. -/
def dateAt2 (_prev : Option Char) (s : List Char) : Option (List Char × String) :=
  match s with
  | '(' :: a :: b :: c :: d :: '-' :: e :: f :: '-' :: g :: h :: ')' :: _ =>
      if isDigitC a && isDigitC b && isDigitC c && isDigitC d &&
          isDigitC e && isDigitC f && isDigitC g && isDigitC h then
        some (['(', a, b, c, d, '-', e, f, '-', g, h, ')'],
          String.mk [a, b, c, d, '-', e, f, '-', g, h])
      else none
  | _ => none

/-- Pattern `\b(\d{4}-\d{2}-\d{2})\b` with the captured text as value. -/
def dateAt3 (prev : Option Char) (s : List Char) : Option (List Char × String) :=
  match s with
  | a :: b :: c :: d :: '-' :: e :: f :: '-' :: g :: h :: rest =>
      if boundaryOKBefore prev && isDigitC a && isDigitC b && isDigitC c &&
          isDigitC d && isDigitC e && isDigitC f && isDigitC g && isDigitC h &&
          boundaryOKAfter rest then
        some ([a, b, c, d, '-', e, f, '-', g, h],
          String.mk [a, b, c, d, '-', e, f, '-', g, h])
      else none
  | _ => none

/-- Month part `(\d{1,2})/` of the fourth date pattern: `\d{1,2}` is
greedy, so two digits are taken when a slash follows them; with one digit
taken, backtracking succeeds only when the slash comes right after it. -/
def d4Month : List Char → Option (List Char × List Char)
  | a :: rest =>
      if isDigitC a then
        match rest with
        | b :: rest2 =>
            if isDigitC b then
              match rest2 with
              | '/' :: r => some ([a, b], r)
              | _ => none
            else if b = '/' then some ([a], rest2)
            else none
        | [] => none
      else none
  | [] => none

/-- Year part `(\d{2,4})\)` of the fourth date pattern: `\d{2,4}` is
greedy, so four digits are tried first, then three, then two, each time
requiring the closing parenthesis right after; a shorter year can only
succeed when the character cutting the digit run short is the closing
parenthesis itself. -/
def d4Year (s : List Char) : Option (List Char) :=
  match s with
  | a :: b :: rest =>
      if isDigitC a && isDigitC b then
        match rest with
        | c :: rest2 =>
            if isDigitC c then
              match rest2 with
              | d :: rest3 =>
                  if isDigitC d then
                    match rest3 with
                    | ')' :: _ => some [a, b, c, d]
                    | _ => none
                  else if d = ')' then some [a, b, c]
                  else none
              | [] => none
            else if c = ')' then some [a, b]
            else none
        | [] => none
      else none
  | _ => none

/-- Left zero padding `str.zfill(2)` of the month group. -/
def zfill2 (m : List Char) : List Char :=
  match m with
  | [a] => ['0', a]
  | m => m

/-- Pattern `\((\d{1,2})/(\d{2,4})\)` with the format lambda of the
source: the value is year dash zero-filled month, where a year of fewer
than four digits is prefixed with `20`.  Note the produced value has no
day component. -/
def dateAt4 (_prev : Option Char) (s : List Char) : Option (List Char × String) :=
  match s with
  | '(' :: rest =>
      match d4Month rest with
      | none => none
      | some (mo, r2) =>
          match d4Year r2 with
          | none => none
          | some yr =>
              let yr4 := if yr.length = 4 then yr else '2' :: '0' :: yr
              some ('(' :: mo ++ '/' :: yr ++ [')'],
                String.mk (yr4 ++ '-' :: zfill2 mo))
  | _ => none

/-- Full leftmost searches of the four date patterns. -/
def dateSearch1 (s : List Char) : Option (List Char × String) := searchPos dateAt1 none s

/-- Leftmost search of the second date pattern. -/
def dateSearch2 (s : List Char) : Option (List Char × String) := searchPos dateAt2 none s

/-- Leftmost search of the third date pattern. -/
def dateSearch3 (s : List Char) : Option (List Char × String) := searchPos dateAt3 none s

/-- Leftmost search of the fourth date pattern. -/
def dateSearch4 (s : List Char) : Option (List Char × String) := searchPos dateAt4 none s

/-- The ordered date table `DATE_PATTERNS` of `normalizer.py`: each entry
is the leftmost search of one pattern bundled with its format lambda. -/
def DATE_PATTERNS : List (List Char → Option (List Char × String)) :=
  [dateSearch1, dateSearch2, dateSearch3, dateSearch4]

/-- The date loop of `normalize_model` step 1: the patterns are tried in
table order and the first pattern with a match anywhere wins. -/
def dateSearch (s : List Char) : Option (List Char × String) :=
  DATE_PATTERNS.findSome? (fun f => f s)

/-- Step 1 of `normalize_model`: extract the date value and replace every
occurrence of the matched text by a single space in the residual string. -/
def dateStep (s : List Char) : Option String × List Char :=
  match dateSearch s with
  | some (g0, v) => (some v, replaceAll s g0 [' '])
  | none => (none, s)

/-! # Size and version extraction of the source -/

/-- Class `[bBmMkK]` of the size pattern. -/
def unitChar (c : Char) : Bool :=
  c = 'b' || c = 'B' || c = 'm' || c = 'M' || c = 'k' || c = 'K'

/-- Optional quantization tail `(?: slash-or-dash, optional a, digits, unit )?` of the size
pattern, returning the matched characters and the remainder. -/
def sizeSuffix : List Char → Option (List Char × List Char)
  | sep :: rest =>
      if sep = '/' || sep = '-' then
        let ap : List Char × List Char :=
          match rest with
          | a :: r => if a = 'a' || a = 'A' then ([a], r) else ([], a :: r)
          | [] => ([], [])
        let ds := ap.2.takeWhile isDigitC
        let rest3 := ap.2.dropWhile isDigitC
        if ds.isEmpty then none
        else
          match rest3 with
          | u :: r4 => if unitChar u then some (sep :: (ap.1 ++ ds ++ [u]), r4) else none
          | [] => none
      else none
  | [] => none

/-- Position matcher for the size pattern
`\b(\d+x?\d*(?:\.\d+)?[bBmMkK](?: slash-or-dash, optional a, digits, unit )?)\b` of
`normalize_model` step 3 (case-sensitive).  The digit runs are greedy;
when the optional quantization tail matches but the trailing word
boundary fails, the regex engine backtracks and drops the tail. -/
def sizeAt (prev : Option Char) (s : List Char) : Option (List Char) :=
  if !(boundaryOKBefore prev) then none
  else
    let ds1 := s.takeWhile isDigitC
    let r1 := s.dropWhile isDigitC
    if ds1.isEmpty then none
    else
      let xp : List Char × List Char :=
        match r1 with
        | 'x' :: r2 => ('x' :: r2.takeWhile isDigitC, r2.dropWhile isDigitC)
        | _ => ([], r1)
      let fr : List Char × List Char :=
        match xp.2 with
        | '.' :: r =>
            let fs := r.takeWhile isDigitC
            if fs.isEmpty then ([], xp.2) else ('.' :: fs, r.dropWhile isDigitC)
        | _ => ([], xp.2)
      match fr.2 with
      | u :: r5 =>
          if unitChar u then
            let core := ds1 ++ xp.1 ++ fr.1 ++ [u]
            match sizeSuffix r5 with
            | some (sfx, r7) =>
                if boundaryOKAfter r7 then some (core ++ sfx)
                else if boundaryOKAfter r5 then some core
                else none
            | none => if boundaryOKAfter r5 then some core else none
          else none
      | [] => none

/-- Leftmost search of the size pattern, as in `re.search`. -/
def sizeSearch (s : List Char) : Option (List Char) := searchPos sizeAt none s

/-- Position matcher for the version pattern `\b(\d+\.\d+(?:\.\d+)?)\b` of
`normalize_model` step 4 (case-sensitive).  When the optional third group
matches but the trailing word boundary fails, the regex engine drops the
optional group; the boundary after the two-component version then always
holds because the next character is the dot. -/
def versionAt (prev : Option Char) (s : List Char) : Option (List Char) :=
  if !(boundaryOKBefore prev) then none
  else
    let d1 := s.takeWhile isDigitC
    let r1 := s.dropWhile isDigitC
    if d1.isEmpty then none
    else
      match r1 with
      | '.' :: r2 =>
          let d2 := r2.takeWhile isDigitC
          let r3 := r2.dropWhile isDigitC
          if d2.isEmpty then none
          else
            match r3 with
            | '.' :: r4 =>
                let d3 := r4.takeWhile isDigitC
                let r5 := r4.dropWhile isDigitC
                if d3.isEmpty then
                  if boundaryOKAfter r3 then some (d1 ++ '.' :: d2) else none
                else if boundaryOKAfter r5 then some (d1 ++ '.' :: d2 ++ '.' :: d3)
                else if boundaryOKAfter r3 then some (d1 ++ '.' :: d2)
                else none
            | _ => if boundaryOKAfter r3 then some (d1 ++ '.' :: d2) else none
      | _ => none

/-- Leftmost search of the version pattern, as in `re.search`. -/
def versionSearch (s : List Char) : Option (List Char) := searchPos versionAt none s

/-! # Family cleanup and id construction of the source -/

/-- Scan for the first closing parenthesis, returning the characters
before it and the remainder after it. -/
def splitAtClose : List Char → Option (List Char × List Char)
  | [] => none
  | ')' :: r => some ([], r)
  | c :: r => (splitAtClose r).map (fun p => (c :: p.1, p.2))

/-- Class `[a-z0-9]` kept by the family cleanup (the string is already
lower-cased when the cleanup runs). -/
def isFamKeep (c : Char) : Bool := isLowerL c || isDigitC c

/-- Fuel-driven worker for `famSub`. -/
def famGo : Nat → List Char → List Char
  | 0, s => s
  | _, [] => []
  | fuel + 1, c :: rest =>
      if c = '(' then
        match splitAtClose rest with
        | some (_, after) => '-' :: famGo fuel after
        | none => '-' :: famGo fuel ((c :: rest).dropWhile (fun x => !(isFamKeep x)))
      else if !(isFamKeep c) then
        '-' :: famGo fuel ((c :: rest).dropWhile (fun x => !(isFamKeep x)))
      else c :: famGo fuel rest

/-- The family cleanup `re.sub(r"\(.*?\)|[^a-z0-9]+", "-", name)` of
`normalize_model` step 6: at a position holding an opening parenthesis
with a closing one somewhere after it, the non-greedy first alternative
consumes up to the nearest closing parenthesis; otherwise a maximal run
of characters outside `[a-z0-9]` is consumed; either match becomes one
dash. -/
def famSub (s : List Char) : List Char := famGo (s.length + 1) s

/-- Python `str.strip("-")`. -/
def stripDashes (s : List Char) : List Char :=
  ((s.dropWhile (fun c => c = '-')).reverse.dropWhile (fun c => c = '-')).reverse

/-- The collapse `re.sub(r"-+", "-", s)` of runs of dashes. -/
def collapseDashes : List Char → List Char
  | '-' :: '-' :: rest => collapseDashes ('-' :: rest)
  | c :: rest => c :: collapseDashes rest
  | [] => []

/-- The strip `re.sub(r"-standard$", "", s)` of one trailing
`-standard`. -/
def stripTrailingStandard (s : List Char) : List Char :=
  if litHere ("-standard".toList.reverse) s.reverse then
    (s.reverse.drop 9).reverse
  else s

/-- Truthiness filter and dash join shared by the id constructions:
`"-".join([str(p) for p in parts if p])` followed by `.lower()` and the
dash collapse. -/
def joinParts (ps : List (Option String)) : String :=
  String.mk (collapseDashes (lowerAll
    (String.intercalate "-" ((ps.filterMap id).filter (fun x => x ≠ ""))).toList))

/-! # The normalize_model function of the source -/

/-- First table entry whose pattern matches the raw string, as scanned by
step 5 of `normalize_model` (against the original raw string,
case-insensitively). -/
def providerFind (raw : List Char) : Option (List Alt × String) :=
  PROVIDER_PATTERNS.find? (fun e => (searchAlts e.1 none raw).isSome)

/-- Fallback of step 5: `re.match(r"([a-zA-Z0-9]+)", raw.strip())`
lower-cased, and `unknown` when the anchored match fails, which happens
exactly when the stripped raw string does not begin with an alphanumeric
character. -/
def fallbackProvider (raw : List Char) : String :=
  match (pyStrip raw).takeWhile isAlnumC with
  | [] => "unknown"
  | t => String.mk (lowerAll t)

/-- Result of `normalize_model`.  The source returns the triple
`(full_id, base_id, provider)`; the fields `variant` and `release_date`
expose the local values `variant_val` and `date_val` computed by steps 1
and 2, which otherwise only surface inside `full_id`.  On the sentinel
path the source never computes those locals; they are set to the step
defaults here. -/
structure NormalizedModel where
  full_id : String
  base_id : String
  provider : String
  variant : String
  release_date : Option String
deriving DecidableEq

/-- Embedding of `normalize_model` from `normalizer.py`: sentinel on the
empty input, then the camel-case passes, date extraction, variant
detection, size extraction, version extraction, provider anchoring with
fallback, and id construction, in source order. -/
def normalize_model (raw_name : String) : NormalizedModel :=
  if raw_name = "" then
    { full_id := "n/a", base_id := "n/a", provider := "unknown",
      variant := "standard", release_date := none }
  else
    let raw := raw_name.toList
    let name1 := camelPasses (pyStrip raw)
    let dres := dateStep name1
    let vres : String × List Char :=
      if (searchAlts reasoningAlts none raw).isSome then ("reasoning", dres.2)
      else
        match VARIANT_PATTERNS.find? (fun e => (searchAlts e.1 none dres.2).isSome) with
        | some e => (e.2, subAlts e.1 [' '] dres.2)
        | none => ("standard", dres.2)
    let sres : Option String × List Char :=
      match sizeSearch vres.2 with
      | some g0 => (some (String.mk (lowerAll g0)), replaceAll vres.2 g0 [' '])
      | none => (none, vres.2)
    let wres : Option String × List Char :=
      match versionSearch sres.2 with
      | some g1 => (some (String.mk g1), replaceAll sres.2 g1 [' '])
      | none => (none, sres.2)
    let pres : String × List Char :=
      match providerFind raw with
      | some e => (e.2, subAlts e.1 [] wres.2)
      | none => (fallbackProvider raw, wres.2)
    let clean_family := String.mk (stripDashes (famSub (lowerAll pres.2)))
    let base_id := joinParts [some pres.1, some clean_family, wres.1, sres.1]
    let full_id := String.mk (stripTrailingStandard
      (joinParts [some base_id, some vres.1, dres.1]).toList)
    { full_id := full_id, base_id := base_id, provider := pres.1,
      variant := vres.1, release_date := dres.1 }

/-! # Score ingestion of the source

Embedding of `ingest_benchmark_scores` from `ingestion.py` with the
default flags `update = True`, `skip_fk = False`.  The database tables are
modelled as lists of rows; the Python dict comprehensions building the
lookup tables keep, for a duplicated key, the row inserted last, hence the
search over the reversed list.  The `Normalizer` placeholders of the
source only strip the names.  A `ValueError` raised by the resolution
loop propagates before the write session opens, so the error case leaves
the score table untouched; the embedding returns the new table only on
success. -/

/-- Row of the `benchmark_dictionary` table. -/
structure BenchRow where
  id : Nat
  name_normalized : String
  variant : Option String
deriving DecidableEq

/-- Row of the `llm_metadata` table (the columns used by ingestion). -/
structure LLMRow where
  id : Nat
  name_normalized : String
  provider : String
  quantization : Option String
deriving DecidableEq

/-- One record of an ingestion batch for `ingest_benchmark_scores`. -/
structure ScoreRecord where
  original_model_name : String
  original_benchmark_name : String
  original_benchmark_variant : Option String
  score_value : ℚ
  source_url : String
  date_published : Option String
deriving DecidableEq

/-- A record with its resolved foreign keys, as inserted into the
`benchmark_scores` table. -/
structure ResolvedScore where
  benchmark_id : Nat
  model_id : Nat
  record : ScoreRecord
deriving DecidableEq

/-- Placeholder `Normalizer.normalize_model_names` of the source: each
name is stripped. -/
def normalize_model_names (raw : List String) : List String := raw.map pyStripStr

/-- Placeholder `Normalizer.normalize_benchmark_names` of the source:
names are stripped, variants pass through. -/
def normalize_benchmark_names (raw : List String) (variants : List (Option String)) :
    List (String × Option String) :=
  (raw.map pyStripStr).zip variants

/-- Benchmark lookup key of the source:
the string `name_normalized` + `#` + variant, a falsy variant (absent or
empty) contributing the empty string. -/
def benchKey (name : String) (variant : Option String) : String :=
  name ++ "#" ++ variant.getD ""

/-- Model lookup key of the source: the string `name_normalized` alone. -/
def llmKey (name : String) : String := name

/-- Python dict built by a comprehension keyed by `keyOf`: for a
duplicated key the row iterated last wins. -/
def dictGet (rows : List α) (keyOf : α → String) (k : String) : Option α :=
  rows.reverse.find? (fun r => keyOf r = k)

/-- The lookup map `fk_lookup_benchmark` of `ingest_benchmark_scores`,
built once per batch from the full benchmark table. -/
def fk_lookup_benchmark (rows : List BenchRow) (k : String) : Option BenchRow :=
  dictGet rows (fun b => benchKey b.name_normalized b.variant) k

/-- The lookup map `fk_lookup_llm` of `ingest_benchmark_scores`, built
once per batch from the full model table. -/
def fk_lookup_llm (rows : List LLMRow) (k : String) : Option LLMRow :=
  dictGet rows (fun m => llmKey m.name_normalized) k

/-- One iteration of the foreign-key resolution loop of
`ingest_benchmark_scores`: normalize the names of the record, look both
keys up, and raise a `ValueError` naming the record when either entity is
absent. -/
def resolveOne (benchRows : List BenchRow) (llmRows : List LLMRow) (r : ScoreRecord) :
    Except String ResolvedScore :=
  let bn := pyStripStr r.original_benchmark_name
  let bvs := r.original_benchmark_variant.getD ""
  let mn := pyStripStr r.original_model_name
  match fk_lookup_benchmark benchRows (bn ++ "#" ++ bvs) with
  | none => .error ("Could not find benchmark FK for " ++ bn ++ " " ++ bvs)
  | some b =>
      match fk_lookup_llm llmRows (llmKey mn) with
      | none => .error ("Could not find model FK for " ++ mn)
      | some m => .ok ⟨b.id, m.id, r⟩

/-- The foreign-key resolution loop of `ingest_benchmark_scores`: records
are processed in order and the first record whose benchmark or model key
misses the lookup raises a `ValueError`, which aborts the whole loop. -/
def resolveRecords (benchRows : List BenchRow) (llmRows : List LLMRow) :
    List ScoreRecord → Except String (List ResolvedScore)
  | [] => .ok []
  | r :: rest =>
      match resolveOne benchRows llmRows r with
      | .error e => .error e
      | .ok x =>
          match resolveRecords benchRows llmRows rest with
          | .error e => .error e
          | .ok rs => .ok (x :: rs)

/-- Duplicate test of the write phase: same benchmark, model, source url
and publication date. -/
def scoreDup (a b : ResolvedScore) : Bool :=
  a.benchmark_id == b.benchmark_id && a.model_id == b.model_id &&
    a.record.source_url == b.record.source_url &&
    a.record.date_published == b.record.date_published

/-- Write phase of `ingest_benchmark_scores` with `update = True`: each
resolved record is appended unless an equal-keyed row already exists
(earlier inserts of the same loop are visible through autoflush). -/
def insertScores (existing : List ResolvedScore) (toAdd : List ResolvedScore) :
    List ResolvedScore :=
  toAdd.foldl (fun acc r => if acc.any (fun e => scoreDup e r) then acc else acc ++ [r])
    existing

/-- Embedding of `ingest_benchmark_scores` (default flags): resolve every
record against the two lookup maps, then insert the non-duplicates; a
resolution failure aborts the whole call before anything is written. -/
def ingest_benchmark_scores (benchRows : List BenchRow) (llmRows : List LLMRow)
    (existing : List ResolvedScore) (records : List ScoreRecord) :
    Except String (List ResolvedScore) :=
  match resolveRecords benchRows llmRows records with
  | .error e => .error e
  | .ok rs => .ok (insertScores existing rs)

/-! # Boolean field validation of the source -/

/-- String forms recognised as true by `validate_bool_fields`. -/
def TRUE_STRINGS : List String := ["TRUE", "1", "YES"]

/-- String forms recognised as false by `validate_bool_fields`. -/
def FALSE_STRINGS : List String := ["FALSE", "0", "NO"]

/-- Embedding of `LLMMetadataSchema.validate_bool_fields` from
`models.py` on string inputs: the value is stripped and upper-cased,
compared against the recognised forms, and otherwise coerced by Python
truthiness of the stripped upper-cased string, that is, non-emptiness. -/
def validate_bool_fields (v : String) : Bool :=
  let u := strUpper (pyStripStr v)
  if TRUE_STRINGS.contains u then true
  else if FALSE_STRINGS.contains u then false
  else u != ""

/-! # The embedding index of the source

Embedding of `Embedding.generate_index` and `Embedding.search_index` from
`embedding.py`.  The external provider response is an input (a list of
vectors over the rationals); the on-disk FAISS artifact is modelled as an
optional list of id-vector pairs.  `faiss.IndexFlatIP` search is exact
inner-product top-k, modelled as sorting the scored entries by score
descending and taking the first k; the `normalize_L2` scaling of the
source is not modelled, since no claim depends on the absolute scale of
the scores. -/

/-- The configured embedding width `EMBED_DIM` of the source. -/
def EMBED_DIM : Nat := 4096

/-- The persisted FAISS artifact: id-vector pairs. -/
abbrev FaissIndex := List (Int × List ℚ)

/-- Width check of `Embedding._openrouter_embed`: `np.array` of a ragged
response has no second axis and fails, and a rectangular response whose
width is not `EMBED_DIM` raises the dimension `ValueError` of the
source. -/
def openrouterEmbedCheck (resp : List (List ℚ)) : Except String (List (List ℚ)) :=
  match resp with
  | [] => .error "embedding response has no vectors"
  | r :: rs =>
      if rs.all (fun v => v.length = r.length) then
        if r.length = EMBED_DIM then .ok (r :: rs)
        else .error "EMBED_DIM does not match actual embedding size"
      else .error "embedding response is ragged"

/-- Embedding of `Embedding.generate_index`: the provider response is
checked first; only on success is a new index built, stored and written,
replacing the persisted artifact.  The second component is the persisted
artifact after the call. -/
def generate_index (persisted : Option FaissIndex) (ids : List Int)
    (resp : List (List ℚ)) : Except String Unit × Option FaissIndex :=
  match openrouterEmbedCheck resp with
  | .error e => (.error e, persisted)
  | .ok vecs => (.ok (), some (ids.zip vecs))

/-- Inner product of two vectors. -/
def dotQ (v w : List ℚ) : ℚ := (List.zipWith (fun a b => a * b) v w).sum

/-- Exact top-k by score descending, the search semantics of
`faiss.IndexFlatIP` wrapped in `IndexIDMap2`. -/
def topKByScore (l : List (Int × ℚ)) (k : Nat) : List (Int × ℚ) :=
  (List.insertionSort (fun a b => b.2 ≤ a.2) l).take k

/-- Embedding of `Embedding.search_index`: a missing index raises the
`ValueError` of the source, otherwise the query is scored against every
indexed vector and the top k pairs are returned, best first. -/
def search_index (index : Option FaissIndex) (q : List ℚ) (k : Nat) :
    Except String (List (Int × ℚ)) :=
  match index with
  | none => .error "FAISS index not found. Please generate the index before searching."
  | some entries => .ok (topKByScore (entries.map (fun e => (e.1, dotQ q e.2))) k)

/-! # The CalibrationEngine

Modelled from the spec: `retrieve_and_rank_models` in
`agentic_core/tools.py`, the declared home of the bridge-model offset
logic (its docstring step 3), is an empty stub, so the calibration
algorithm is embedded from spec section 4.4. -/

/-- Modelled from the spec: one cell of the working score matrix. -/
structure ScoreCell where
  model : Nat
  bench : Nat
  value : ℚ
  is_estimated : Bool
deriving DecidableEq

/-- Modelled from the spec: the authoritative (non-estimated) score of a
model on a benchmark, when present in the matrix. -/
def authScore (scores : List ScoreCell) (m b : Nat) : Option ℚ :=
  (scores.find? (fun c => c.model == m && c.bench == b && !c.is_estimated)).map
    (fun c => c.value)

/-- Modelled from the spec: the models appearing in the matrix. -/
def modelsOf (scores : List ScoreCell) : List Nat :=
  (scores.map (fun c => c.model)).dedup

/-- Modelled from the spec: the first authoritative score of model `m` on
a benchmark sharing the base id of the target `t` (the bridge). -/
def bridgeFor (scores : List ScoreCell) (baseOf : Nat → Nat) (m t : Nat) :
    Option ScoreCell :=
  scores.find? (fun c =>
    c.model == m && !c.is_estimated && baseOf c.bench == baseOf t && c.bench != t)

/-- Modelled from the spec: the calibration-anchor models, that is, the
other models holding authoritative scores on both the target and the
bridge benchmark. -/
def anchorsFor (scores : List ScoreCell) (m t b : Nat) : List Nat :=
  (modelsOf scores).filter (fun m2 =>
    m2 != m && (authScore scores m2 t).isSome && (authScore scores m2 b).isSome)

/-- Modelled from the spec: the estimate of spec section 4.4 for model
`m` on target benchmark `t`.  A model already holding an authoritative
target score needs no estimate; the cell stays absent when the model has
no bridge score or when fewer than two anchor models exist; otherwise the
mean offset of the anchors (target minus bridge) is applied to the bridge
score of `m` and the produced cell is flagged as estimated. -/
def estimate_cell (scores : List ScoreCell) (baseOf : Nat → Nat) (m t : Nat) :
    Option ScoreCell :=
  match authScore scores m t with
  | some _ => none
  | none =>
      match bridgeFor scores baseOf m t with
      | none => none
      | some bc =>
          let anchors := anchorsFor scores m t bc.bench
          if anchors.length < 2 then none
          else
            let offsets := anchors.filterMap (fun m2 =>
              match authScore scores m2 t, authScore scores m2 bc.bench with
              | some x, some y => some (x - y)
              | _, _ => none)
            some ⟨m, t, bc.value + offsets.sum / (offsets.length : ℚ), true⟩

/-! # Spec-side checkers and fixed instances used by the theorems -/

/-- Reading of the spec claim about the provider fallback, following the
words of the claim: the first alphanumeric token occurring anywhere in the
raw string.  The source instead anchors `re.match` at the start of the
stripped string; the two are compared below. -/
def specFirstAlnumToken (s : List Char) : Option (List Char) :=
  match s.dropWhile (fun c => !(isAlnumC c)) with
  | [] => none
  | t => some (t.takeWhile isAlnumC)

/-- Checker for the `YYYY-MM-DD` form the spec says every extracted date
value is normalized to: ten characters, eight digits split by dashes. -/
def specIsFullDateForm (v : String) : Bool :=
  match v.toList with
  | [a, b, c, d, x, e, f, y, g, h] =>
      isDigitC a && isDigitC b && isDigitC c && isDigitC d && x = '-' &&
        isDigitC e && isDigitC f && y = '-' && isDigitC g && isDigitC h
  | _ => false

/-- Test that the first character class of an alternative accepts no
whitespace character, so the alternative can never start matching inside
an all-whitespace string. -/
def altRejectsSpace (alt : Alt) : Bool :=
  match alt.classes with
  | [] => false
  | cls :: _ => spaceChars.all (fun c => !(cls c))

/-- Base-id map of the calibration instance used below: benchmarks 10 and
11 share one base, every other benchmark is its own base. -/
def calBaseOf : Nat → Nat := fun b => if b = 11 then 10 else b

/-! # Helper lemmas -/

theorem matchAltAt_space_none (alt : Alt) (halt : altRejectsSpace alt = true)
    (prev : Option Char) (s : List Char) (hs : ∀ c ∈ s, isPySpace c = true) :
    matchAltAt prev alt s = none := by
  unfold altRejectsSpace at halt
  rcases hcl : alt.classes with _ | ⟨cls, cs⟩
  · rw [hcl] at halt; exact absurd halt (by simp)
  · rw [hcl] at halt
    unfold matchAltAt
    rw [hcl]
    rcases s with _ | ⟨c, rest⟩
    · simp [matchClasses]
    · have hc : isPySpace c = true := hs c (by simp)
      have hmem : c ∈ spaceChars := by
        unfold isPySpace at hc
        exact List.mem_of_elem_eq_true hc
      have hcls : cls c = false := by
        have hall := List.all_eq_true.mp halt c hmem
        simpa using hall
      simp [matchClasses, hcls]

theorem matchAltsAt_space_none (alts : List Alt) (hA : alts.all altRejectsSpace = true)
    (prev : Option Char) (s : List Char) (hs : ∀ c ∈ s, isPySpace c = true) :
    matchAltsAt prev alts s = none := by
  unfold matchAltsAt
  rw [List.findSome?_eq_none_iff]
  intro alt hmem
  exact matchAltAt_space_none alt (List.all_eq_true.mp hA alt hmem) prev s hs

theorem searchAlts_space_none (alts : List Alt) (hA : alts.all altRejectsSpace = true) :
    ∀ (prev : Option Char) (s : List Char), (∀ c ∈ s, isPySpace c = true) →
    searchAlts alts prev s = none := by
  intro prev s
  induction s generalizing prev with
  | nil =>
      intro hs
      unfold searchAlts
      rw [matchAltsAt_space_none alts hA prev [] hs]
      rfl
  | cons c rest ih =>
      intro hs
      unfold searchAlts
      rw [matchAltsAt_space_none alts hA prev (c :: rest) hs]
      exact ih (some c) (fun x hx => hs x (by simp [hx]))

theorem pyStrip_space_nil (s : List Char) (hs : ∀ c ∈ s, isPySpace c = true) :
    pyStrip s = [] := by
  unfold pyStrip
  have h1 : s.dropWhile isPySpace = [] := by
    rw [List.dropWhile_eq_nil_iff]
    intro x hx; exact hs x hx
  rw [h1]
  rfl

theorem normalize_model_space (s : String) (hne : s ≠ "")
    (hsp : ∀ c ∈ s.toList, isPySpace c = true) :
    normalize_model s =
      { full_id := "unknown", base_id := "unknown", provider := "unknown",
        variant := "standard", release_date := none } := by
  have h1 : pyStrip s.toList = [] := pyStrip_space_nil s.toList hsp
  have h2 : searchAlts reasoningAlts none s.toList = none :=
    searchAlts_space_none reasoningAlts (by decide) none s.toList hsp
  have h3 : providerFind s.toList = none := by
    unfold providerFind
    rw [List.find?_eq_none]
    intro e hmem
    have hES : e.1.all altRejectsSpace = true := by
      revert hmem
      have hall : ∀ e ∈ PROVIDER_PATTERNS, e.1.all altRejectsSpace = true := by decide
      exact hall e
    have hnone := searchAlts_space_none e.1 hES none s.toList hsp
    simp only [String.toList] at hnone
    simp [hnone]
  have h4 : fallbackProvider s.toList = "unknown" := by
    unfold fallbackProvider
    rw [h1]
    rfl
  simp only [normalize_model, if_neg hne, h1, h2, h3, h4]
  rfl

theorem normalize_model_provider_of_find (raw : String) (e : List Alt × String)
    (h : providerFind raw.toList = some e) :
    (normalize_model raw).provider = e.2 := by
  by_cases hr : raw = ""
  · rw [hr] at h
    rw [show providerFind "".toList = none from rfl] at h
    exact absurd h (by simp)
  · simp only [normalize_model, if_neg hr, h]

theorem normalize_model_provider_fallback (raw : String)
    (h : providerFind raw.toList = none) :
    (normalize_model raw).provider = fallbackProvider raw.toList := by
  by_cases hr : raw = ""
  · rw [hr]; rfl
  · simp only [normalize_model, if_neg hr, h]

theorem searchPos_preserve {α : Type} (f : Option Char → List Char → Option α)
    (P : α → Prop) (hf : ∀ prev s r, f prev s = some r → P r) :
    ∀ (prev : Option Char) (s : List Char) (r : α), searchPos f prev s = some r → P r := by
  intro prev s
  induction s generalizing prev with
  | nil => intro r h; exact hf prev [] r h
  | cons c rest ih =>
      intro r h
      unfold searchPos at h
      rcases hx : f prev (c :: rest) with _ | r0
      · rw [hx] at h
        exact ih (some c) r h
      · rw [hx] at h
        injection h with h
        subst h
        exact hf prev (c :: rest) r0 hx

theorem dateAt1_shape (prev : Option Char) (s : List Char) (r : List Char × String)
    (h : dateAt1 prev s = some r) : specIsFullDateForm r.2 = true := by
  unfold dateAt1 at h
  split at h
  next a b c d e f g h8 rest =>
    split at h
    next hdig =>
      injection h with h
      subst h
      simp only [specIsFullDateForm, String.toList]
      simp only [Bool.and_eq_true] at hdig ⊢
      simp [hdig]
    next => exact absurd h (by simp)
  next => exact absurd h (by simp)

theorem dateSearch1_shape (s : List Char) (r : List Char × String)
    (h : dateSearch1 s = some r) : specIsFullDateForm r.2 = true :=
  searchPos_preserve dateAt1 (fun r => specIsFullDateForm r.2 = true)
    (fun p t q hq => dateAt1_shape p t q hq) none s r h

theorem dateAt2_shape (prev : Option Char) (s : List Char) (r : List Char × String)
    (h : dateAt2 prev s = some r) : specIsFullDateForm r.2 = true := by
  unfold dateAt2 at h
  split at h
  next a b c d e f g h8 rest =>
    split at h
    next hdig =>
      injection h with h
      subst h
      simp only [specIsFullDateForm, String.toList]
      simp only [Bool.and_eq_true] at hdig ⊢
      simp [hdig]
    next => exact absurd h (by simp)
  next => exact absurd h (by simp)

theorem dateSearch2_shape (s : List Char) (r : List Char × String)
    (h : dateSearch2 s = some r) : specIsFullDateForm r.2 = true :=
  searchPos_preserve dateAt2 (fun r => specIsFullDateForm r.2 = true)
    (fun p t q hq => dateAt2_shape p t q hq) none s r h

theorem dateAt3_shape (prev : Option Char) (s : List Char) (r : List Char × String)
    (h : dateAt3 prev s = some r) : specIsFullDateForm r.2 = true := by
  unfold dateAt3 at h
  split at h
  next a b c d e f g h8 rest =>
    split at h
    next hdig =>
      injection h with h
      subst h
      simp only [specIsFullDateForm, String.toList]
      simp only [Bool.and_eq_true] at hdig ⊢
      simp [hdig]
    next => exact absurd h (by simp)
  next => exact absurd h (by simp)

theorem dateSearch3_shape (s : List Char) (r : List Char × String)
    (h : dateSearch3 s = some r) : specIsFullDateForm r.2 = true :=
  searchPos_preserve dateAt3 (fun r => specIsFullDateForm r.2 = true)
    (fun p t q hq => dateAt3_shape p t q hq) none s r h

theorem d4Month_cases (s : List Char) (mo r : List Char)
    (h : d4Month s = some (mo, r)) : (∃ a, mo = [a]) ∨ (∃ a b, mo = [a, b]) := by
  unfold d4Month at h
  split at h
  next a rest =>
    split at h
    next =>
      split at h
      next b rest2 =>
        split at h
        next =>
          split at h
          next r2 =>
            injection h with h
            rw [Prod.mk.injEq] at h
            exact Or.inr ⟨a, b, h.1.symm⟩
          next => exact absurd h (by simp)
        next =>
          split at h
          next =>
            injection h with h
            rw [Prod.mk.injEq] at h
            exact Or.inl ⟨a, h.1.symm⟩
          next => exact absurd h (by simp)
      next => exact absurd h (by simp)
    next => exact absurd h (by simp)
  next => exact absurd h (by simp)

theorem d4Year_cases (s : List Char) (yr : List Char)
    (h : d4Year s = some yr) :
    (∃ a b, yr = [a, b]) ∨ (∃ a b c, yr = [a, b, c]) ∨ (∃ a b c d, yr = [a, b, c, d]) := by
  unfold d4Year at h
  split at h
  next a b rest =>
    split at h
    next =>
      split at h
      next c rest2 =>
        split at h
        next =>
          split at h
          next d rest3 =>
            split at h
            next =>
              split at h
              next =>
                injection h with h
                exact Or.inr (Or.inr ⟨a, b, c, d, h.symm⟩)
              next => exact absurd h (by simp)
            next =>
              split at h
              next =>
                injection h with h
                exact Or.inr (Or.inl ⟨a, b, c, h.symm⟩)
              next => exact absurd h (by simp)
          next => exact absurd h (by simp)
        next =>
          split at h
          next =>
            injection h with h
            exact Or.inl ⟨a, b, h.symm⟩
          next => exact absurd h (by simp)
      next => exact absurd h (by simp)
    next => exact absurd h (by simp)
  next => exact absurd h (by simp)

theorem dateAt4_shape (prev : Option Char) (s : List Char) (r : List Char × String)
    (h : dateAt4 prev s = some r) : specIsFullDateForm r.2 = false := by
  unfold dateAt4 at h
  split at h
  next rest =>
    rcases hm : d4Month rest with _ | ⟨mo, r2⟩
    · rw [hm] at h; exact absurd h (by simp)
    · simp only [hm] at h
      rcases hy : d4Year r2 with _ | yr
      · rw [hy] at h; exact absurd h (by simp)
      · simp only [hy, Option.some.injEq] at h
        subst h
        rcases d4Month_cases rest mo r2 hm with ⟨a, hmo⟩ | ⟨a, b, hmo⟩ <;>
          rcases d4Year_cases r2 yr hy with ⟨x, y, hyr⟩ | ⟨x, y, z, hyr⟩ | ⟨x, y, z, w, hyr⟩ <;>
          subst hmo <;> subst hyr <;> rfl
  next => exact absurd h (by simp)

theorem dateSearch4_shape (s : List Char) (r : List Char × String)
    (h : dateSearch4 s = some r) : specIsFullDateForm r.2 = false :=
  searchPos_preserve dateAt4 (fun r => specIsFullDateForm r.2 = false)
    (fun p t q hq => dateAt4_shape p t q hq) none s r h

theorem dateStep_cases : ∀ s : List Char,
    (∀ m, dateSearch1 s = some m →
      dateStep s = (some m.2, replaceAll s m.1 [' ']) ∧ specIsFullDateForm m.2 = true) ∧
    (dateSearch1 s = none → ∀ m, dateSearch2 s = some m →
      dateStep s = (some m.2, replaceAll s m.1 [' ']) ∧ specIsFullDateForm m.2 = true) ∧
    (dateSearch1 s = none → dateSearch2 s = none → ∀ m, dateSearch3 s = some m →
      dateStep s = (some m.2, replaceAll s m.1 [' ']) ∧ specIsFullDateForm m.2 = true) ∧
    (dateSearch1 s = none → dateSearch2 s = none → dateSearch3 s = none →
      ∀ m, dateSearch4 s = some m →
      dateStep s = (some m.2, replaceAll s m.1 [' ']) ∧ specIsFullDateForm m.2 = false) ∧
    (dateSearch1 s = none → dateSearch2 s = none → dateSearch3 s = none →
      dateSearch4 s = none → dateStep s = (none, s)) := by
  intro s
  refine ⟨?_, ?_, ?_, ?_, ?_⟩
  · intro m h1
    have hd : dateSearch s = some m := by
      simp only [dateSearch, DATE_PATTERNS, List.findSome?, h1]
    exact ⟨by simp only [dateStep, hd], dateSearch1_shape s m h1⟩
  · intro h1 m h2
    have hd : dateSearch s = some m := by
      simp only [dateSearch, DATE_PATTERNS, List.findSome?, h1, h2]
    exact ⟨by simp only [dateStep, hd], dateSearch2_shape s m h2⟩
  · intro h1 h2 m h3
    have hd : dateSearch s = some m := by
      simp only [dateSearch, DATE_PATTERNS, List.findSome?, h1, h2, h3]
    exact ⟨by simp only [dateStep, hd], dateSearch3_shape s m h3⟩
  · intro h1 h2 h3 m h4
    have hd : dateSearch s = some m := by
      simp only [dateSearch, DATE_PATTERNS, List.findSome?, h1, h2, h3, h4]
    exact ⟨by simp only [dateStep, hd], dateSearch4_shape s m h4⟩
  · intro h1 h2 h3 h4
    have hd : dateSearch s = none := by
      simp only [dateSearch, DATE_PATTERNS, List.findSome?, h1, h2, h3, h4]
    simp only [dateStep, hd]

theorem dateStep_in_normalize : ∀ raw : String, raw ≠ "" →
    (normalize_model raw).release_date = (dateStep (camelPasses (pyStrip raw.toList))).1 := by
  intro raw hr
  simp only [normalize_model, if_neg hr]

theorem resolveOne_error_of (benchRows : List BenchRow) (llmRows : List LLMRow)
    (r : ScoreRecord)
    (hfail : fk_lookup_benchmark benchRows
        (pyStripStr r.original_benchmark_name ++ "#" ++
          r.original_benchmark_variant.getD "") = none ∨
      fk_lookup_llm llmRows (llmKey (pyStripStr r.original_model_name)) = none) :
    ∃ msg, resolveOne benchRows llmRows r = .error msg := by
  simp only [resolveOne]
  rcases hfail with hb | hm
  · simp only [hb]
    exact ⟨_, rfl⟩
  · rcases hfb : fk_lookup_benchmark benchRows
        (pyStripStr r.original_benchmark_name ++ "#" ++
          r.original_benchmark_variant.getD "") with _ | b
    · simp only [hfb]; exact ⟨_, rfl⟩
    · simp only [hfb, hm]; exact ⟨_, rfl⟩

/-! # Claim theorems -/

set_option maxRecDepth 10000

/-- Claim C1, amended.  When a score record in an ingestion batch
references a benchmark or model absent from the resolver snapshot,
`ingest_benchmark_scores` raises a `ValueError` naming the missing entity
(the record is never silently dropped), and the error aborts the ENTIRE
batch: no record of the batch is inserted, resolvable siblings included.
The per-record partial-success semantics stated by the claim does not
hold on the code. -/
theorem ingest_scores_unresolved_fk_aborts_batch
    (benchRows : List BenchRow) (llmRows : List LLMRow)
    (existing : List ResolvedScore) (records : List ScoreRecord) (r : ScoreRecord)
    (hmem : r ∈ records)
    (hfail : fk_lookup_benchmark benchRows
        (pyStripStr r.original_benchmark_name ++ "#" ++
          r.original_benchmark_variant.getD "") = none ∨
      fk_lookup_llm llmRows (llmKey (pyStripStr r.original_model_name)) = none) :
    ∃ msg, ingest_benchmark_scores benchRows llmRows existing records = .error msg := by
  suffices h : ∃ msg, resolveRecords benchRows llmRows records = .error msg by
    rcases h with ⟨msg, hm⟩
    exact ⟨msg, by simp only [ingest_benchmark_scores, hm]⟩
  induction records with
  | nil => exact absurd hmem (by simp)
  | cons r0 rest ih =>
      rcases hr0 : resolveOne benchRows llmRows r0 with e | x
      · exact ⟨e, by simp only [resolveRecords, hr0]⟩
      · rcases List.mem_cons.mp hmem with heq | htail
        · rcases resolveOne_error_of benchRows llmRows r hfail with ⟨msg, hmsg⟩
          rw [heq] at hmsg
          rw [hmsg] at hr0
          exact absurd hr0 (by simp)
        · rcases ih htail with ⟨msg, hmsg⟩
          exact ⟨msg, by simp only [resolveRecords, hr0, hmsg]⟩

/-- Witness for C1: a batch over a snapshot with one benchmark and no
models errors out. -/
theorem ingest_scores_unresolved_fk_aborts_batch_witness : ∃ msg,
    ingest_benchmark_scores [⟨1, "mmlu", none⟩] [] []
      [⟨"m", "mmlu", none, 1, "u", none⟩] = .error msg :=
  ingest_scores_unresolved_fk_aborts_batch _ _ _ _
    ⟨"m", "mmlu", none, 1, "u", none⟩ (by decide) (Or.inr (by decide))

/-- Counterexample for C1 as stated: a batch holding one unresolvable
record and one resolvable sibling ends in the `ValueError`, and the
sibling, although it resolves on its own, is not ingested — the batch has
no partial success. -/
theorem ingest_scores_sibling_not_ingested_counterexample :
    ingest_benchmark_scores [⟨1, "mmlu", none⟩] [⟨1, "gpt-4", "openai", none⟩] []
        [⟨"nonexistent", "mmlu", none, 5, "u", none⟩,
          ⟨"gpt-4", "mmlu", none, 7, "u2", none⟩] =
      .error "Could not find model FK for nonexistent" ∧
    resolveOne [⟨1, "mmlu", none⟩] [⟨1, "gpt-4", "openai", none⟩]
        ⟨"gpt-4", "mmlu", none, 7, "u2", none⟩ =
      .ok ⟨1, 1, ⟨"gpt-4", "mmlu", none, 7, "u2", none⟩⟩ :=
  ⟨rfl, rfl⟩

/-- Claim C2, confirmed against the spec model.  With models A = 0 and
B = 1 holding authoritative scores on both the target X = 10 and the
bridge Y = 11 (same base id), and model C = 2 scored only on Y, the
calibration estimate for C on X is `C.score_on_Y + mean(A.X - A.Y,
B.X - B.Y)` flagged as estimated; with only one anchor model, or with no
bridge score for C, the cell stays absent. -/
theorem calibration_bridge_offset_estimate : ∀ ax ay bx bz cy : ℚ,
    (estimate_cell
        [⟨0, 10, ax, false⟩, ⟨0, 11, ay, false⟩, ⟨1, 10, bx, false⟩,
          ⟨1, 11, bz, false⟩, ⟨2, 11, cy, false⟩] calBaseOf 2 10 =
      some ⟨2, 10, cy + ((ax - ay) + (bx - bz)) / 2, true⟩) ∧
    (estimate_cell [⟨0, 10, ax, false⟩, ⟨0, 11, ay, false⟩, ⟨2, 11, cy, false⟩]
        calBaseOf 2 10 = none) ∧
    (estimate_cell [⟨0, 10, ax, false⟩, ⟨0, 11, ay, false⟩, ⟨1, 10, bx, false⟩,
        ⟨1, 11, bz, false⟩] calBaseOf 2 10 = none) := by
  intro ax ay bx bz cy
  refine ⟨?_, rfl, rfl⟩
  have h : estimate_cell
      [⟨0, 10, ax, false⟩, ⟨0, 11, ay, false⟩, ⟨1, 10, bx, false⟩,
        ⟨1, 11, bz, false⟩, ⟨2, 11, cy, false⟩] calBaseOf 2 10 =
      some ⟨2, 10, cy + ((ax - ay) + ((bx - bz) + 0)) / ((2 : Nat) : ℚ), true⟩ := rfl
  have hval : cy + ((ax - ay) + ((bx - bz) + 0)) / ((2 : Nat) : ℚ) =
      cy + ((ax - ay) + (bx - bz)) / 2 := by
    push_cast
    ring
  rw [h, hval]

/-- Claim C3, amended.  For every raw label matched by some entry of the
ordered provider table, the provider is the one of the first matching
entry (table order decides collisions); for labels matching no entry, the
provider is the fallback of the source: the leading alphanumeric run of
the stripped raw string lower-cased, and `unknown` exactly when the
stripped string does not begin with an alphanumeric character. -/
theorem provider_anchoring_first_match_and_fallback :
    (∀ (raw : String) (e : List Alt × String), providerFind raw.toList = some e →
      (normalize_model raw).provider = e.2) ∧
    (∀ raw : String, providerFind raw.toList = none →
      (normalize_model raw).provider = fallbackProvider raw.toList) :=
  ⟨normalize_model_provider_of_find, normalize_model_provider_fallback⟩

/-- Witness for C3: the first table entry decides `Claude 3`, and `-foo`
goes through the fallback. -/
theorem provider_anchoring_first_match_and_fallback_witness :
    (normalize_model "Claude 3").provider = "anthropic" ∧
    (normalize_model "-foo").provider = fallbackProvider "-foo".toList :=
  ⟨provider_anchoring_first_match_and_fallback.1 "Claude 3"
      ([ciLit "claude", ciLit "anthropic"], "anthropic") rfl,
    provider_anchoring_first_match_and_fallback.2 "-foo" rfl⟩

/-- Counterexample for C3 as stated: `-foo` matches no table entry and
holds the alphanumeric token `foo`, yet the provider is `unknown`, not
`foo` — the fallback anchors at the start of the stripped string instead
of taking the first token anywhere. -/
theorem provider_fallback_token_counterexample :
    providerFind "-foo".toList = none ∧
    specFirstAlnumToken "-foo".toList = some "foo".toList ∧
    (normalize_model "-foo").provider = "unknown" ∧
    (normalize_model "-foo").provider ≠ String.mk (lowerAll "foo".toList) :=
  ⟨rfl, rfl, by decide, by decide⟩

/-- Claim C4, amended.  The date loop tries the four patterns in table
order and only the first pattern with a match is applied, the matched
text being replaced in the residual string; the values of the first three
patterns have the full `YYYY-MM-DD` form, but the fourth, month-slash-year
pattern produces a year-month value with NO day component (a year of
fewer than four digits prefixed with `20`, the month zero-filled), so the
extracted value is not always normalized to `YYYY-MM-DD`.  The second
part ties the extraction into `normalize_model`. -/
theorem date_extraction_priority_and_formats :
    (∀ s : List Char,
      (∀ m, dateSearch1 s = some m →
        dateStep s = (some m.2, replaceAll s m.1 [' ']) ∧ specIsFullDateForm m.2 = true) ∧
      (dateSearch1 s = none → ∀ m, dateSearch2 s = some m →
        dateStep s = (some m.2, replaceAll s m.1 [' ']) ∧ specIsFullDateForm m.2 = true) ∧
      (dateSearch1 s = none → dateSearch2 s = none → ∀ m, dateSearch3 s = some m →
        dateStep s = (some m.2, replaceAll s m.1 [' ']) ∧ specIsFullDateForm m.2 = true) ∧
      (dateSearch1 s = none → dateSearch2 s = none → dateSearch3 s = none →
        ∀ m, dateSearch4 s = some m →
        dateStep s = (some m.2, replaceAll s m.1 [' ']) ∧ specIsFullDateForm m.2 = false) ∧
      (dateSearch1 s = none → dateSearch2 s = none → dateSearch3 s = none →
        dateSearch4 s = none → dateStep s = (none, s))) ∧
    (∀ raw : String, raw ≠ "" →
      (normalize_model raw).release_date =
        (dateStep (camelPasses (pyStrip raw.toList))).1) :=
  ⟨dateStep_cases, dateStep_in_normalize⟩

/-- Witness for C4: the fourth pattern fires on `model (5/24)` and yields
the year-month value `2024-05`. -/
theorem date_extraction_priority_and_formats_witness :
    (dateStep ("model (5/24)".toList) =
      (some "2024-05", replaceAll ("model (5/24)".toList) ("(5/24)".toList) [' '])) ∧
    specIsFullDateForm "2024-05" = false :=
  (date_extraction_priority_and_formats.1 ("model (5/24)".toList)).2.2.2.1
    (by decide) (by decide) (by decide) ("(5/24)".toList, "2024-05") (by decide)

/-- Counterexample for C4 as stated: the date extracted from
`model (5/24)` is `2024-05`, which is not of the `YYYY-MM-DD` form the
claim says every extracted value is normalized to. -/
theorem date_extraction_month_year_counterexample :
    (normalize_model "model (5/24)").release_date = some "2024-05" ∧
    specIsFullDateForm "2024-05" = false := by
  decide

/-- Claim C5, amended.  `normalize_model` is a total function; the empty
input yields the sentinel `n/a` triple, but a non-empty wholly-whitespace
input does NOT: it runs through the pipeline and yields canonical id,
base id and provider all `unknown`. -/
theorem normalize_model_total_sentinel_behaviour :
    normalize_model "" =
      { full_id := "n/a", base_id := "n/a", provider := "unknown",
        variant := "standard", release_date := none } ∧
    (∀ s : String, s ≠ "" → (∀ c ∈ s.toList, isPySpace c = true) →
      normalize_model s =
        { full_id := "unknown", base_id := "unknown", provider := "unknown",
          variant := "standard", release_date := none }) :=
  ⟨rfl, normalize_model_space⟩

/-- Witness for C5: the one-space input. -/
theorem normalize_model_total_sentinel_behaviour_witness :
    (" " : String) ≠ "" ∧
    normalize_model " " =
      { full_id := "unknown", base_id := "unknown", provider := "unknown",
        variant := "standard", release_date := none } :=
  ⟨by decide, normalize_model_total_sentinel_behaviour.2 " " (by decide) (by decide)⟩

/-- Counterexample for C5 as stated: the wholly-whitespace input yields
canonical id `unknown`, not the claimed sentinel `n/a` (the provider is
`unknown` as claimed). -/
theorem normalize_model_whitespace_counterexample :
    (normalize_model " ").full_id ≠ "n/a" ∧ (normalize_model " ").provider = "unknown" := by
  decide

/-- Claim C6, confirmed.  On the literal input `o1-preview (2024-09-12)`
the variant is `reasoning` (the reasoning pattern wins over `preview`),
the release date is `2024-09-12`, and the provider is `openai`, the
provider of the table entry carrying the `o[1-9]` alternative. -/
theorem normalize_model_o1_preview_literal :
    (normalize_model "o1-preview (2024-09-12)").variant = "reasoning" ∧
    (normalize_model "o1-preview (2024-09-12)").release_date = some "2024-09-12" ∧
    (normalize_model "o1-preview (2024-09-12)").provider = "openai" := by
  decide

/-- Claim C7, confirmed.  Whenever a search against the semantic index
returns (that is, an index is present), the result holds at most k
entries and is ordered by similarity descending: no entry has a
similarity lower than an entry ranked after it. -/
theorem search_index_topk_descending : ∀ (index : Option FaissIndex) (q : List ℚ)
    (k : Nat) (res : List (Int × ℚ)), search_index index q k = .ok res →
    res.length ≤ k ∧ res.Sorted (fun a b => b.2 ≤ a.2) := by
  intro index q k res h
  rcases index with _ | entries
  · exact absurd h (by simp [search_index])
  · simp only [search_index, Except.ok.injEq] at h
    subst h
    constructor
    · exact List.length_take_le k _
    · haveI : IsTotal (Int × ℚ) (fun a b => b.2 ≤ a.2) := ⟨fun a b => le_total b.2 a.2⟩
      haveI : IsTrans (Int × ℚ) (fun a b => b.2 ≤ a.2) :=
        ⟨fun _ _ _ h1 h2 => le_trans h2 h1⟩
      have hs := List.sorted_insertionSort (fun a b : Int × ℚ => b.2 ≤ a.2)
        (entries.map (fun e => (e.1, dotQ q e.2)))
      exact List.Pairwise.sublist (List.take_sublist _ _) hs

/-- Witness for C7: a two-entry index searched with k = 1. -/
theorem search_index_topk_descending_witness :
    ([((7 : Int), (2 : ℚ))].length ≤ 1) ∧
    ([((7 : Int), (2 : ℚ))] : List (Int × ℚ)).Sorted (fun a b => b.2 ≤ a.2) :=
  search_index_topk_descending
    (some [((5 : Int), [(1 : ℚ)]), ((7 : Int), [(2 : ℚ)])]) [(1 : ℚ)] 1
    [((7 : Int), (2 : ℚ))]
    (by simp [search_index, topKByScore, dotQ, List.insertionSort, List.orderedInsert])

/-- Claim C8, confirmed.  When the provider returns a vector whose width
disagrees with the configured dimension, the whole index build fails with
an error before any new index is built or written, and the previously
persisted index is unchanged. -/
theorem generate_index_dimension_mismatch_fail_fast
    (persisted : Option FaissIndex) (ids : List Int) (resp : List (List ℚ))
    (v : List ℚ) (hv : v ∈ resp) (hw : v.length ≠ EMBED_DIM) :
    ∃ msg, generate_index persisted ids resp = (.error msg, persisted) := by
  rcases resp with _ | ⟨r, rs⟩
  · exact absurd hv (by simp)
  · simp only [generate_index, openrouterEmbedCheck]
    by_cases hall : rs.all (fun w => w.length = r.length) = true
    · have hvr : v.length = r.length := by
        rcases List.mem_cons.mp hv with he | ht
        · rw [he]
        · have := List.all_eq_true.mp hall v ht
          simpa using this
      have hr : ¬(r.length = EMBED_DIM) := by rw [← hvr]; exact hw
      rw [if_pos hall, if_neg hr]
      exact ⟨_, rfl⟩
    · rw [if_neg hall]
      exact ⟨_, rfl⟩

/-- Witness for C8: a two-wide vector against the configured 4096. -/
theorem generate_index_dimension_mismatch_fail_fast_witness : ∃ msg,
    generate_index (some [((9 : Int), [(1 : ℚ)])]) [3] [[(1 : ℚ), 2]] =
      (.error msg, some [((9 : Int), [(1 : ℚ)])]) :=
  generate_index_dimension_mismatch_fail_fast _ _ _ [(1 : ℚ), 2] (by decide) (by decide)

/-- Claim C9, amended.  Both ingestion lookups are exact string matches
against maps built once per batch, with no fuzzy fallback: the benchmark
lookup succeeds exactly when a snapshot row has the same
`name_normalized#variant` key, but the MODEL lookup is keyed by
`name_normalized` alone — it succeeds exactly when a row carries that
name, with provider and quantization ignored, although the stated unique
constraint of the table is the full triple. -/
theorem resolution_keys_exact_match :
    (∀ (rows : List LLMRow) (n : String),
      (fk_lookup_llm rows (llmKey n)).isSome = true ↔ ∃ r ∈ rows, r.name_normalized = n) ∧
    (∀ (rows : List BenchRow) (n : String) (v : Option String),
      (fk_lookup_benchmark rows (benchKey n v)).isSome = true ↔
        ∃ b ∈ rows, benchKey b.name_normalized b.variant = benchKey n v) := by
  constructor
  · intro rows n
    unfold fk_lookup_llm dictGet llmKey
    rw [List.find?_isSome]
    constructor
    · rintro ⟨x, hx, hp⟩
      exact ⟨x, List.mem_reverse.mp hx, by simpa using hp⟩
    · rintro ⟨x, hx, hp⟩
      exact ⟨x, List.mem_reverse.mpr hx, by simpa using hp⟩
  · intro rows n v
    unfold fk_lookup_benchmark dictGet
    rw [List.find?_isSome]
    constructor
    · rintro ⟨x, hx, hp⟩
      exact ⟨x, List.mem_reverse.mp hx, by simpa using hp⟩
    · rintro ⟨x, hx, hp⟩
      exact ⟨x, List.mem_reverse.mpr hx, by simpa using hp⟩

/-- Counterexample for C9 as stated: two model rows differing only in
provider are indistinguishable to the lookup — the key ignores the
provider (and quantization), and the row inserted last shadows the other,
so resolution is not keyed by the claimed triple. -/
theorem model_key_ignores_provider_counterexample :
    (fk_lookup_llm
      [⟨1, "gemma-7b", "google", none⟩, ⟨2, "gemma-7b", "meta", some "q4"⟩]
      (llmKey "gemma-7b")) = some ⟨2, "gemma-7b", "meta", some "q4"⟩ ∧
    ("google" : String) ≠ "meta" :=
  ⟨rfl, by decide⟩

/-- Claim C10, amended.  The three boolean fields coerce the recognised
string forms case-insensitively after stripping: members of
`TRUE_STRINGS` to true and of `FALSE_STRINGS` to false; every OTHER
string is accepted, never rejected, and coerced by Python truthiness of
the stripped upper-cased value — true exactly when that value is
non-empty, so a non-empty all-whitespace input coerces to false, not
true. -/
theorem validate_bool_fields_truthiness : ∀ s : String,
    validate_bool_fields s = true ↔
      (strUpper (pyStripStr s) ∈ TRUE_STRINGS ∨
        (strUpper (pyStripStr s) ∉ TRUE_STRINGS ∧ strUpper (pyStripStr s) ∉ FALSE_STRINGS ∧
          strUpper (pyStripStr s) ≠ "")) := by
  intro s
  unfold validate_bool_fields
  by_cases h1 : strUpper (pyStripStr s) ∈ TRUE_STRINGS
  · simp [h1, List.elem_iff]
  · by_cases h2 : strUpper (pyStripStr s) ∈ FALSE_STRINGS
    · simp [h1, h2, List.elem_iff]
    · by_cases h3 : strUpper (pyStripStr s) = ""
      · simp [h1, h2, h3, List.elem_iff]
      · simp [h1, h2, h3, List.elem_iff]

/-- Counterexample for C10 as stated: the one-space string is non-empty
and belongs to neither recognised list, yet it coerces to false, not
true. -/
theorem validate_bool_fields_whitespace_counterexample :
    validate_bool_fields " " = false ∧ (" " : String) ≠ "" ∧
    strUpper (pyStripStr " ") ∉ TRUE_STRINGS ∧
    strUpper (pyStripStr " ") ∉ FALSE_STRINGS := by
  decide
